import Mathlib

/-!
Verification of the micro-benchmark harness (list-vs-dict membership timing
experiment) against its natural-language specification.

The Python sources are shallowly embedded:
* exact Python/numpy float arithmetic is modelled over `ℚ`; the only
  irrational operation used by the code, `math.sqrt` / the square root inside
  `np.std`, is kept symbolic through the `PyFloat` value type, so every
  definition stays computable;
* Python dictionaries that the statistics functions return are modelled as
  association lists `List (String × PyFloat)`, preserving key names and
  insertion order;
* fallible Python functions (those whose contract in the spec mentions a
  failure) are embedded with `Except StatError`; a function whose body has no
  `raise` path always returns `.ok`;
* the wall-clock timer (`time.perf_counter_ns`), the random query generator
  (`random.randint`) and the two timed probes are nondeterministic inputs of
  the block runner, so the runner is embedded as a deterministic function of
  three oracles `randv tlC tdC : ℕ → _` indexed by the global iteration
  number (block · blockSize + i), exactly the order in which the Python loop
  draws them.
-/

/-- Exact value of a Python float expression produced by the embedded code:
either a rational number, `math.sqrt` of a rational, or a rational divided by
`math.sqrt` of a rational (the only float shapes the sources build). -/
inductive PyFloat where
  | rat : ℚ → PyFloat
  | sqrtOf : ℚ → PyFloat
  | divSqrt : ℚ → ℚ → PyFloat
  deriving DecidableEq, Repr

/-- Failure taxonomy of §7 of the spec.  The embedded code raises
`ValueError` in two places; the spec names them `InvalidConfiguration`
(run-parameter validation) and `EmptyInput` (statistics over an empty
sequence).  `insufficientSamples` is the spec's name for the Welch-test
guard; the sources never produce it. -/
inductive StatError where
  | invalidConfiguration : StatError
  | emptyInput : StatError
  | insufficientSamples : StatError
  deriving DecidableEq, Repr

/-- Coercion of an integer timing value (ns) into the exact float domain. -/
def qOfNat (n : ℕ) : ℚ := (n : ℚ)

/-- Coercion of a natural number into the Python integer domain. -/
def zOfNat (n : ℕ) : ℤ := (n : ℤ)

/-- Python `sum(valores)`. -/
def sumQ (l : List ℚ) : ℚ := l.sum

/-- `np.mean v` and the mean `s / n` computed by
`calcular_estatisticas_simples`: arithmetic mean (division by zero yields `0`
in `ℚ` where numpy would warn and produce `nan`; no claim is evaluated on an
empty sequence). -/
def npMean (v : List ℚ) : ℚ := sumQ v / (v.length : ℚ)

/-- `sum((x - mean) ** 2 for x in valores)`: sum of squared deviations from a
given centre `m`. -/
def ssdQ (v : List ℚ) (m : ℚ) : ℚ := (v.map (fun x => (x - m) ^ 2)).sum

/-- `np.var(v, ddof)` (and `np.std(v, ddof) ** 2`): sum of squared deviations
divided by `n - ddof`. -/
def npVarQ (v : List ℚ) (ddof : ℚ) : ℚ :=
  ssdQ v (npMean v) / ((v.length : ℚ) - ddof)

/-- Python `sorted(valores)`: a comparison sort.  For a total order the
sorted permutation of a list is unique, so insertion sort is extensionally
the same function as CPython's timsort. -/
def sortQ (v : List ℚ) : List ℚ := v.insertionSort (· ≤ ·)

/-- Python `min(valores)` (total here; the sources only call it on non-empty
lists, where the default branch is unreachable). -/
def pyMin : List ℚ → ℚ
  | [] => 0
  | x :: xs => xs.foldl min x

/-- Python `max(valores)`. -/
def pyMax : List ℚ → ℚ
  | [] => 0
  | x :: xs => xs.foldl max x

/-- The inner helper `quantil(sorted_arr, q)` of
`calcular_estatisticas_simples` (experimento_busca.py, lines 141-149):
`pos = q * (n - 1)`, `lo = int(pos)`, `hi = min(lo + 1, n - 1)`,
`frac = pos - lo`, result `sorted_arr[lo] * (1 - frac) + sorted_arr[hi] *
frac`.  Python's `int()` truncates toward zero, which on the non-negative
positions arising from `q ∈ [0, 1]` is the floor.  Out-of-range indexing
(never reached for `q ∈ [0, 1]` and `n ≥ 1`) is modelled with `getD`. -/
def quantil (sorted_arr : List ℚ) (n : ℕ) (q : ℚ) : ℚ :=
  let pos := q * ((n : ℚ) - 1)
  let lo := (⌊pos⌋).toNat
  let hi := min (lo + 1) (n - 1)
  let frac := pos - (lo : ℚ)
  sorted_arr.getD lo 0 * (1 - frac) + sorted_arr.getD hi 0 * frac

/-- Quantile operator transcribed from the spec's words (§4.4): "linear
interpolation on the sorted sequence at index `position = quantile × (n−1)`:
let `lo = floor(position)`, `hi = min(lo+1, n−1)`, `frac = position − lo`;
result = `sorted[lo]×(1−frac) + sorted[hi]×frac`".  Kept separate from
`quantil` so the code/spec formulas can be compared. -/
def specQuantile (sortedSeq : List ℚ) (n : ℕ) (q : ℚ) : ℚ :=
  let position := q * ((n : ℚ) - 1)
  let lo := (⌊position⌋).toNat
  let hi := min (lo + 1) (n - 1)
  let frac := position - (lo : ℚ)
  sortedSeq.getD lo 0 * (1 - frac) + sortedSeq.getD hi 0 * frac

/-- Arithmetic mean as worded by the spec. -/
def specMean (v : List ℚ) : ℚ := v.sum / (v.length : ℚ)

/-- "sample variances (divisor n−1)" as worded by the spec (§4.4). -/
def specVarSample (v : List ℚ) : ℚ :=
  (v.map (fun x => (x - specMean v) ^ 2)).sum / ((v.length : ℚ) - 1)

/-- Population variance, divisor n. -/
def specVarPop (v : List ℚ) : ℚ :=
  (v.map (fun x => (x - specMean v) ^ 2)).sum / (v.length : ℚ)

/-- The spec's Welch statistic
`t = (meanX − meanY) / sqrt(varX/nX + varY/nY)` with *sample* variances,
as a symbolic float. -/
def specWelchT (x y : List ℚ) : PyFloat :=
  .divSqrt (specMean x - specMean y)
    (specVarSample x / (x.length : ℚ) + specVarSample y / (y.length : ℚ))

/-- `calcular_estatisticas_simples(valores)` (experimento_busca.py, lines
110-164).  Raises `ValueError` — spec name `EmptyInput` — on the empty list,
otherwise returns the dict
`{n, media, mediana, pstdev, q1, q3, min, max}` in source order, with
`pstdev = math.sqrt(ssd / n)` kept symbolic. -/
def calcular_estatisticas_simples (valores : List ℚ) :
    Except StatError (List (String × PyFloat)) :=
  let n := valores.length
  if n = 0 then .error .emptyInput
  else
    let s := sumQ valores
    let mean := s / (n : ℚ)
    let ssd := ssdQ valores mean
    let minimo := pyMin valores
    let maximo := pyMax valores
    let sorted_vals := sortQ valores
    .ok [(("n"), .rat (n : ℚ)), (("media"), .rat mean),
         (("mediana"), .rat (quantil sorted_vals n (1/2))),
         (("pstdev"), .sqrtOf (ssd / (n : ℚ))),
         (("q1"), .rat (quantil sorted_vals n (1/4))),
         (("q3"), .rat (quantil sorted_vals n (3/4))),
         (("min"), .rat minimo), (("max"), .rat maximo)]

/-- `np.percentile(arr, p)` with the default linear-interpolation method,
which is exactly the `quantil` formula at `q = p / 100` on the sorted data. -/
def npPercentile (arr : List ℚ) (p : ℚ) : ℚ :=
  quantil (sortQ arr) arr.length (p / 100)

/-- `np.median(arr)`: the 50th percentile under linear interpolation. -/
def npMedian (arr : List ℚ) : ℚ := npPercentile arr 50

/-- `descriptive_stats(arr)` (analise_resultados.py, lines 56-77): the
nine-entry `OrderedDict` in source order.  The function performs no
empty-input check (numpy would fail with an `IndexError` inside
`np.percentile` on an empty array; the claims are evaluated on non-empty
input only). -/
def descriptive_stats (arr : List ℚ) : List (String × PyFloat) :=
  [(("n"), .rat (arr.length : ℚ)), (("mean"), .rat (npMean arr)),
   (("median"), .rat (npMedian arr)),
   (("std_pop"), .sqrtOf (npVarQ arr 0)),
   (("std_sample"), .sqrtOf (npVarQ arr 1)),
   (("q1"), .rat (npPercentile arr 25)), (("q3"), .rat (npPercentile arr 75)),
   (("min"), .rat (pyMin arr)), (("max"), .rat (pyMax arr))]

/-- Result of `welch_ttest` (analise_resultados.py, lines 79-94): the
`t` statistic `(m1 - m2) / math.sqrt(s1/n1 + s2/n2)` kept symbolic, and the
Welch–Satterthwaite degrees of freedom (a rational expression).  The p-value
entries of the returned dict are produced by the external scipy Student-t
distribution (or set to `None`); no claim under verification mentions them,
so they are not modelled. -/
structure WelchResult where
  t : PyFloat
  df : ℚ
  deriving DecidableEq, Repr

/-- `welch_ttest(x, y)` (analise_resultados.py, lines 79-94):
`s1 = np.var(x, ddof=1)`, `s2 = np.var(y, ddof=1)` (sample variances),
`t = (m1 - m2) / math.sqrt(s1/n1 + s2/n2)`,
`df = (s1/n1 + s2/n2)**2 / ((s1**2)/((n1**2)*(n1-1)) +
(s2**2)/((n2**2)*(n2-1)))`.  The body contains no input validation and no
`raise`; on degenerate input numpy produces `nan` values (modelled by the
`ℚ` division-by-zero convention) but the function still returns a dict,
hence `.ok` on every input. -/
def welch_ttest (x y : List ℚ) : Except StatError WelchResult :=
  let n1 : ℚ := (x.length : ℚ)
  let n2 : ℚ := (y.length : ℚ)
  let m1 := npMean x
  let m2 := npMean y
  let s1 := npVarQ x 1
  let s2 := npVarQ y 1
  .ok ⟨.divSqrt (m1 - m2) (s1 / n1 + s2 / n2),
       (s1 / n1 + s2 / n2) ^ 2 /
         ((s1 ^ 2) / ((n1 ^ 2) * (n1 - 1)) + (s2 ^ 2) / ((n2 ^ 2) * (n2 - 1)))⟩

/-- The t statistic computed by the script calcular_estatisticas.py (lines
80-88): `vx = res_lista["std_pop"] ** 2`, `vy = res_dict["std_pop"] ** 2`,
`se = math.sqrt(vx/nx + vy/ny)`, `t_stat = (mx - my) / se`.  Squaring the
population standard deviation `math.sqrt(ssd / n)` gives back exactly the
population variance `ssd / n = npVarQ v 0` (the radicand is non-negative),
so `vx`, `vy` are the divisor-`n` variances. -/
def t_stat_script (tempos_lista tempos_dict : List ℚ) : PyFloat :=
  let nx : ℚ := (tempos_lista.length : ℚ)
  let ny : ℚ := (tempos_dict.length : ℚ)
  let mx := npMean tempos_lista
  let my := npMean tempos_dict
  let vx := npVarQ tempos_lista 0
  let vy := npVarQ tempos_dict 0
  .divSqrt (mx - my) (vx / nx + vy / ny)

/-- Discriminator for `Except` results of the embedded fallible functions. -/
def exceptOk {α : Type} : Except StatError α → Bool
  | .ok _ => true
  | .error _ => false

/-- A Python `range(start, stop)` object with the default step 1. -/
structure RangeStruct where
  start : ℤ
  stop : ℤ
  deriving DecidableEq, Repr

/-- Python's O(1) membership test `v in range(start, stop)` for step 1. -/
def rangeMem (r : RangeStruct) (v : ℤ) : Prop := r.start ≤ v ∧ v < r.stop

/-- The key sequence of `dict.fromkeys(range(n), True)`: the integers
`0, 1, …, n-1` (empty when `n ≤ 0`, exactly like Python's `range`). -/
def intRange (n : ℤ) : List ℤ := (List.range n.toNat).map zOfNat

/-- `criar_estruturas(num_elementos)` (experimento_busca.py, lines 57-70):
builds `range(num_elementos)` and `dict.fromkeys(range(num_elementos),
True)` — membership in the dict is membership in its key sequence.  The body
performs no validation and has no `raise` path, so it returns `.ok` on every
input. -/
def criar_estruturas (num_elementos : ℤ) :
    Except StatError (RangeStruct × List ℤ) :=
  .ok (⟨0, num_elementos⟩, intRange num_elementos)

/-- The clamp `int(min(t, 2**32 - 1))` applied before every timing value is
stored (experimento_busca.py, lines 290-294). -/
def clampU32 (t : ℕ) : ℕ := min t (2 ^ 32 - 1)

/-- The three global collectors of the block runner: the two compact global
timing sequences (`array('I')`) and the representative-sample list. -/
structure EstadoGlobal where
  temposLista : List ℕ
  temposDict : List ℕ
  amostras : List (ℤ × ℕ × ℕ)
  deriving DecidableEq, Repr

/-- Python dict subscription `d[k]` on the statistics dicts (all keys used by
the runner are present by construction, so the default is unreachable). -/
def lookupD (d : List (String × PyFloat)) (k : String) : PyFloat :=
  (d.lookup k).getD (.rat 0)

/-- The `bloco_stats` dict literal assembled per block
(experimento_busca.py, lines 310-327), in source order. -/
def montarBlocoStats (bloco : ℕ) (sL sD : List (String × PyFloat)) :
    List (String × PyFloat) :=
  [(("bloco"), .rat ((bloco : ℚ) + 1)), (("n"), lookupD sL ("n")),
   (("lista_media"), lookupD sL ("media")),
   (("lista_mediana"), lookupD sL ("mediana")),
   (("lista_pstdev"), lookupD sL ("pstdev")),
   (("lista_q1"), lookupD sL ("q1")), (("lista_q3"), lookupD sL ("q3")),
   (("lista_min"), lookupD sL ("min")), (("lista_max"), lookupD sL ("max")),
   (("dict_media"), lookupD sD ("media")),
   (("dict_mediana"), lookupD sD ("mediana")),
   (("dict_pstdev"), lookupD sD ("pstdev")),
   (("dict_q1"), lookupD sD ("q1")), (("dict_q3"), lookupD sD ("q3")),
   (("dict_min"), lookupD sD ("min")), (("dict_max"), lookupD sD ("max"))]

/-- The inner loop `for i in range(block_size)` of
`executar_experimento_por_blocos` (lines 283-298), with `k` iterations left
and `g` the global iteration number (`bloco * block_size + i`), which indexes
the query/timing oracles.  Each iteration appends the clamped times to the
two global sequences and to the block-local collectors, and — only while the
representative-sample list is shorter than `cap` — appends the unclamped
`(valor, tl, td)` triple to it. -/
def loopBloco (randv : ℕ → ℤ) (tlC tdC : ℕ → ℕ) (cap : ℕ) :
    EstadoGlobal → List ℕ → List ℕ → ℕ → ℕ → EstadoGlobal × List ℕ × List ℕ
  | st, colLista, colDict, _, 0 => (st, colLista, colDict)
  | st, colLista, colDict, g, k + 1 =>
    let valor := randv g
    let tl := tlC g
    let td := tdC g
    let st' : EstadoGlobal :=
      ⟨st.temposLista ++ [clampU32 tl], st.temposDict ++ [clampU32 td],
       if st.amostras.length < cap then st.amostras ++ [(valor, tl, td)]
       else st.amostras⟩
    loopBloco randv tlC tdC cap st' (colLista ++ [clampU32 tl])
      (colDict ++ [clampU32 td]) (g + 1) k

/-- The outer loop `for bloco in range(N_BLOCKS)` (lines 277-331): runs one
block of `bs` queries, computes the two per-block statistics over the
block-local collectors (propagating their `EmptyInput` failure, which Python
raises as an uncaught `ValueError`), appends the assembled `bloco_stats`
record and recurses with `k` blocks remaining. -/
def loopBlocos (randv : ℕ → ℤ) (tlC tdC : ℕ → ℕ) (cap bs : ℕ) :
    ℕ → ℕ → EstadoGlobal → List (List (String × PyFloat)) →
    Except StatError (EstadoGlobal × List (List (String × PyFloat)))
  | _, 0, st, acc => .ok (st, acc)
  | bloco, k + 1, st, acc =>
    let r := loopBloco randv tlC tdC cap st [] [] (bloco * bs) bs
    match calcular_estatisticas_simples (r.2.1.map qOfNat),
          calcular_estatisticas_simples (r.2.2.map qOfNat) with
    | .ok sL, .ok sD =>
      loopBlocos randv tlC tdC cap bs (bloco + 1) k r.1
        (acc ++ [montarBlocoStats bloco sL sD])
    | .error e, _ => .error e
    | .ok _, .error e => .error e

/-- Everything `executar_experimento_por_blocos` computes in memory:
the two global timing sequences, the representative samples, the per-block
statistics records, and the two global statistics dicts. -/
structure RunResult where
  temposLista : List ℕ
  temposDict : List ℕ
  amostras : List (ℤ × ℕ × ℕ)
  estatisticasBlocos : List (List (String × PyFloat))
  statsGlobLista : List (String × PyFloat)
  statsGlobDict : List (String × PyFloat)
  deriving DecidableEq, Repr

/-- `executar_experimento_por_blocos` (experimento_busca.py, lines 236-353).
The module-level configuration constants (`NUM_ELEMENTOS`, `NUM_BUSCAS`,
`N_BLOCKS`, `TAMANHO_SAMPLE`) are the four parameters, as in §9 of the spec;
console printing and the CSV/TXT writers (collaborator I/O) are not part of
the in-memory computation and are omitted.  The four validations raise
`ValueError` — spec name `InvalidConfiguration` — in source order, before
the structures are built and before any block runs. -/
def executar_experimento_por_blocos
    (numElementos numBuscas nBlocks tamanhoSample : ℤ)
    (randv : ℕ → ℤ) (tlC tdC : ℕ → ℕ) : Except StatError RunResult :=
  if nBlocks ≤ 0 then .error .invalidConfiguration
  else if numBuscas ≤ 0 then .error .invalidConfiguration
  else if numElementos ≤ 0 then .error .invalidConfiguration
  else if tamanhoSample < 0 then .error .invalidConfiguration
  else
    let _estruturas := criar_estruturas numElementos
    let blockSize := numBuscas.toNat / nBlocks.toNat
    do
      let p ← loopBlocos randv tlC tdC tamanhoSample.toNat blockSize 0
        nBlocks.toNat ⟨[], [], []⟩ []
      let gL ← calcular_estatisticas_simples (p.1.temposLista.map qOfNat)
      let gD ← calcular_estatisticas_simples (p.1.temposDict.map qOfNat)
      return ⟨p.1.temposLista, p.1.temposDict, p.1.amostras, p.2, gL, gD⟩

/-- The canonical value of the three global collectors after `g` iterations
of the measurement loop driven by the oracles. -/
def canonico (randv : ℕ → ℤ) (tlC tdC : ℕ → ℕ) (cap g : ℕ) : EstadoGlobal :=
  ⟨(List.range g).map (fun j => clampU32 (tlC j)),
   (List.range g).map (fun j => clampU32 (tdC j)),
   (List.range (min g cap)).map (fun j => (randv j, tlC j, tdC j))⟩

/-!
Store-passing embedding of `calcular_estatisticas_simples` for the frame
claim: the argument list is threaded as an explicit store through every
Python primitive the function applies to it, and each primitive returns the
store it leaves behind.  All primitives used by the source (`len`, `sum`, a
read-only generator expression, `min`, `max`, and `sorted`, which allocates
a fresh sorted copy) leave the argument untouched; an in-place primitive such
as `list.sort` would instead return a modified store.
-/

/-- `len(valores)`: reads the store, leaves it unchanged. -/
def pyLenOp (store : List ℚ) : ℕ × List ℚ := (store.length, store)

/-- `sum(valores)`: reads the store, leaves it unchanged. -/
def pySumOp (store : List ℚ) : ℚ × List ℚ := (sumQ store, store)

/-- `sum((x - mean) ** 2 for x in valores)`: a read-only traversal. -/
def pySsdOp (m : ℚ) (store : List ℚ) : ℚ × List ℚ := (ssdQ store m, store)

/-- `min(valores)`: reads the store, leaves it unchanged. -/
def pyMinOp (store : List ℚ) : ℚ × List ℚ := (pyMin store, store)

/-- `max(valores)`: reads the store, leaves it unchanged. -/
def pyMaxOp (store : List ℚ) : ℚ × List ℚ := (pyMax store, store)

/-- `sorted(valores)`: allocates a fresh sorted copy, leaves the argument
unchanged. -/
def pySortedOp (store : List ℚ) : List ℚ × List ℚ := (sortQ store, store)

/-- `calcular_estatisticas_simples` with the mutable argument made explicit:
the same computation as the plain embedding, but every access to `valores`
goes through a store-passing primitive and the function returns the final
store next to its result. -/
def calcularEstatisticasEfeito (valores : List ℚ) :
    (Except StatError (List (String × PyFloat))) × List ℚ :=
  let (n, v1) := pyLenOp valores
  if n = 0 then (.error .emptyInput, v1)
  else
    let (s, v2) := pySumOp v1
    let mean := s / (n : ℚ)
    let (ssd, v3) := pySsdOp mean v2
    let (minimo, v4) := pyMinOp v3
    let (maximo, v5) := pyMaxOp v4
    let (sorted_vals, v6) := pySortedOp v5
    ((.ok [(("n"), .rat (n : ℚ)), (("media"), .rat mean),
           (("mediana"), .rat (quantil sorted_vals n (1/2))),
           (("pstdev"), .sqrtOf (ssd / (n : ℚ))),
           (("q1"), .rat (quantil sorted_vals n (1/4))),
           (("q3"), .rat (quantil sorted_vals n (3/4))),
           (("min"), .rat minimo), (("max"), .rat maximo)]), v6)

-- sanity checks
example : calcular_estatisticas_simples [] = .error .emptyInput := rfl
example : npMean [1, 2, 3, 4] = 5/2 := by norm_num [npMean, sumQ]
example : quantil (sortQ [1, 2, 3, 4]) 4 (1/4) = 7/4 := by
  norm_num [quantil, sortQ, List.insertionSort, List.orderedInsert]

/-! ### Helper lemmas -/

/-- On a non-empty list the statistics dict of
`calcular_estatisticas_simples` is the explicit eight-entry record. -/
lemma calc_record (v : List ℚ) (hv : v ≠ []) :
    calcular_estatisticas_simples v = .ok
      [(("n"), .rat (v.length : ℚ)), (("media"), .rat (npMean v)),
       (("mediana"), .rat (quantil (sortQ v) v.length (1/2))),
       (("pstdev"), .sqrtOf (ssdQ v (npMean v) / (v.length : ℚ))),
       (("q1"), .rat (quantil (sortQ v) v.length (1/4))),
       (("q3"), .rat (quantil (sortQ v) v.length (3/4))),
       (("min"), .rat (pyMin v)), (("max"), .rat (pyMax v))] := by
  have h : ¬ v.length = 0 := by simpa using hv
  simp only [calcular_estatisticas_simples, if_neg h]
  rfl

lemma lookupD_montar_n (bloco : ℕ) (sL sD : List (String × PyFloat)) :
    lookupD (montarBlocoStats bloco sL sD) ("n") = lookupD sL ("n") := rfl

lemma lookupD_calc_n (v : List ℚ) (hv : v ≠ []) :
    ∀ st, calcular_estatisticas_simples v = .ok st →
      lookupD st ("n") = .rat (v.length : ℚ) := by
  intro st hst
  rw [calc_record v hv] at hst
  cases hst
  rfl

/-- The block-local collectors produced by the inner loop are exactly the
clamped oracle times of the `k` iterations starting at global index `g`,
regardless of the global state. -/
lemma loopBloco_coletores (randv : ℕ → ℤ) (tlC tdC : ℕ → ℕ) (cap : ℕ) :
    ∀ (k : ℕ) (st : EstadoGlobal) (colLista colDict : List ℕ) (g : ℕ),
      (loopBloco randv tlC tdC cap st colLista colDict g k).2.1
          = colLista ++ (List.range k).map (fun i => clampU32 (tlC (g + i)))
        ∧ (loopBloco randv tlC tdC cap st colLista colDict g k).2.2
          = colDict ++ (List.range k).map (fun i => clampU32 (tdC (g + i))) := by
  intro k
  induction k with
  | zero => intro st cl cd g; simp [loopBloco]
  | succ k ih =>
    intro st cl cd g
    rw [loopBloco]
    obtain ⟨h1, h2⟩ := ih
      ⟨st.temposLista ++ [clampU32 (tlC g)], st.temposDict ++ [clampU32 (tdC g)],
       if st.amostras.length < cap then st.amostras ++ [(randv g, tlC g, tdC g)]
       else st.amostras⟩
      (cl ++ [clampU32 (tlC g)]) (cd ++ [clampU32 (tdC g)]) (g + 1)
    rw [h1, h2]
    constructor <;>
    · rw [List.range_succ_eq_map, List.map_cons, List.map_map,
        List.append_assoc]
      refine congrArg _ ?_
      refine congrArg _ ?_
      refine List.map_congr_left ?_
      intro i _
      simp only [Function.comp, Nat.succ_eq_add_one]
      rw [(by omega : g + 1 + i = g + (i + 1))]

lemma canonico_succ (randv : ℕ → ℤ) (tlC tdC : ℕ → ℕ) (cap g : ℕ) :
    (⟨(canonico randv tlC tdC cap g).temposLista ++ [clampU32 (tlC g)],
      (canonico randv tlC tdC cap g).temposDict ++ [clampU32 (tdC g)],
      if (canonico randv tlC tdC cap g).amostras.length < cap then
        (canonico randv tlC tdC cap g).amostras ++ [(randv g, tlC g, tdC g)]
      else (canonico randv tlC tdC cap g).amostras⟩ : EstadoGlobal)
      = canonico randv tlC tdC cap (g + 1) := by
  simp only [canonico, List.length_map, List.length_range]
  congr 1
  · rw [List.range_succ, List.map_append]; simp
  · rw [List.range_succ, List.map_append]; simp
  · by_cases hg : g < cap
    · rw [if_pos (by omega : min g cap < cap),
        (by omega : min (g + 1) cap = min g cap + 1), List.range_succ,
        List.map_append, (by omega : min g cap = g)]
      simp
    · rw [if_neg (by omega : ¬ min g cap < cap),
        (by omega : min (g + 1) cap = min g cap)]

/-- Starting from the canonical global state after `g` iterations, `k` more
iterations leave the canonical state after `g + k` iterations. -/
lemma loopBloco_estado (randv : ℕ → ℤ) (tlC tdC : ℕ → ℕ) (cap : ℕ) :
    ∀ (k g : ℕ) (colLista colDict : List ℕ),
      (loopBloco randv tlC tdC cap (canonico randv tlC tdC cap g)
          colLista colDict g k).1
        = canonico randv tlC tdC cap (g + k) := by
  intro k
  induction k with
  | zero => intro g cl cd; simp [loopBloco]
  | succ k ih =>
    intro g cl cd
    rw [loopBloco, canonico_succ,
      (by omega : g + (k + 1) = (g + 1) + k)]
    exact ih (g + 1) _ _

lemma canonico_zero (randv : ℕ → ℤ) (tlC tdC : ℕ → ℕ) (cap : ℕ) :
    canonico randv tlC tdC cap 0 = ⟨[], [], []⟩ := by
  simp [canonico]

/-- As long as each block runs at least one query (`1 ≤ bs`), the outer loop
starting after `bloco` completed blocks succeeds, leaves the canonical global
state, and appends one statistics record per block, each carrying the block
sample count `bs`. -/
lemma loopBlocos_spec (randv : ℕ → ℤ) (tlC tdC : ℕ → ℕ) (cap bs : ℕ)
    (hbs : 1 ≤ bs) :
    ∀ (k bloco : ℕ) (acc : List (List (String × PyFloat))),
      ∃ blocos,
        loopBlocos randv tlC tdC cap bs bloco k
            (canonico randv tlC tdC cap (bloco * bs)) acc
          = .ok (canonico randv tlC tdC cap (bloco * bs + k * bs),
                 acc ++ blocos)
        ∧ blocos.length = k
        ∧ ∀ b ∈ blocos, lookupD b ("n") = .rat (bs : ℚ) := by
  intro k
  induction k with
  | zero =>
    intro bloco acc
    exact ⟨[], by simp [loopBlocos], rfl, by simp⟩
  | succ k ih =>
    intro bloco acc
    obtain ⟨h1, h2⟩ := loopBloco_coletores randv tlC tdC cap bs
      (canonico randv tlC tdC cap (bloco * bs)) [] [] (bloco * bs)
    rw [List.nil_append] at h1 h2
    have hst := loopBloco_estado randv tlC tdC cap bs (bloco * bs) [] []
    have hvL : (((List.range bs).map
        (fun i => clampU32 (tlC (bloco * bs + i)))).map
          qOfNat) ≠ [] := by
      intro hnil
      have := congrArg List.length hnil
      simp at this
      omega
    have hvD : (((List.range bs).map
        (fun i => clampU32 (tdC (bloco * bs + i)))).map
          qOfNat) ≠ [] := by
      intro hnil
      have := congrArg List.length hnil
      simp at this
      omega
    obtain ⟨sL, hsL⟩ : ∃ s, calcular_estatisticas_simples
        (((List.range bs).map (fun i => clampU32 (tlC (bloco * bs + i)))).map
          qOfNat) = .ok s := ⟨_, calc_record _ hvL⟩
    obtain ⟨sD, hsD⟩ : ∃ s, calcular_estatisticas_simples
        (((List.range bs).map (fun i => clampU32 (tdC (bloco * bs + i)))).map
          qOfNat) = .ok s := ⟨_, calc_record _ hvD⟩
    have hnL := lookupD_calc_n _ hvL sL hsL
    obtain ⟨blocos', hib, hilen, hiprop⟩ := ih (bloco + 1)
      (acc ++ [montarBlocoStats bloco sL sD])
    refine ⟨montarBlocoStats bloco sL sD :: blocos', ?_, by simp [hilen], ?_⟩
    · have hidx : (bloco + 1) * bs + k * bs = bloco * bs + (k + 1) * bs := by
        ring
      have happ : (acc ++ [montarBlocoStats bloco sL sD]) ++ blocos'
          = acc ++ (montarBlocoStats bloco sL sD :: blocos') := by simp
      rw [hidx, happ] at hib
      simp only [loopBlocos]
      rw [h1, h2, hsL, hsD, hst,
        (by ring : bloco * bs + bs = (bloco + 1) * bs)]
      exact hib
    · intro b hb
      rcases List.mem_cons.mp hb with hb | hb
      · subst hb
        rw [lookupD_montar_n, hnL]
        have : (((List.range bs).map
            (fun i => clampU32 (tlC (bloco * bs + i)))).map
              qOfNat).length = bs := by simp
        rw [this]
      · exact hiprop b hb

/-- Reduction of the `Except` monad bind on a success value. -/
lemma bind_ok {A B : Type} (a : A) (f : A → Except StatError B) :
    (Except.ok a >>= f) = f a := rfl

/-- Master lemma for a valid configuration whose blocks are non-empty
(`blockCount ≤ totalQueries`): the run succeeds and every collection it
returns is the canonical one determined by the oracles. -/
lemma executar_canonical (ne nb nbl ts : ℤ) (randv : ℕ → ℤ)
    (tlC tdC : ℕ → ℕ) (h1 : 0 < ne) (h2 : 0 < nb) (h3 : 0 < nbl)
    (h4 : 0 ≤ ts) (h5 : nbl ≤ nb) :
    ∃ blocos gL gD,
      executar_experimento_por_blocos ne nb nbl ts randv tlC tdC
        = .ok ⟨(canonico randv tlC tdC ts.toNat
                  (nbl.toNat * (nb.toNat / nbl.toNat))).temposLista,
               (canonico randv tlC tdC ts.toNat
                  (nbl.toNat * (nb.toNat / nbl.toNat))).temposDict,
               (canonico randv tlC tdC ts.toNat
                  (nbl.toNat * (nb.toNat / nbl.toNat))).amostras,
               blocos, gL, gD⟩
      ∧ blocos.length = nbl.toNat
      ∧ ∀ b ∈ blocos,
          lookupD b ("n") = .rat ((nb.toNat / nbl.toNat : ℕ) : ℚ) := by
  have hbl0 : 0 < nbl.toNat := by omega
  have hnb : nbl.toNat ≤ nb.toNat := by omega
  have hbs : 1 ≤ nb.toNat / nbl.toNat := (Nat.one_le_div_iff hbl0).mpr hnb
  obtain ⟨blocos, hloop, hlen, hprop⟩ :=
    loopBlocos_spec randv tlC tdC ts.toNat (nb.toNat / nbl.toNat) hbs
      nbl.toNat 0 []
  rw [Nat.zero_mul] at hloop
  rw [canonico_zero] at hloop
  rw [List.nil_append, Nat.zero_add] at hloop
  have htot : 1 ≤ nbl.toNat * (nb.toNat / nbl.toNat) :=
    Nat.one_le_iff_ne_zero.mpr (by positivity)
  have hgLne : ((canonico randv tlC tdC ts.toNat
      (nbl.toNat * (nb.toNat / nbl.toNat))).temposLista.map qOfNat) ≠ [] := by
    intro hnil
    have := congrArg List.length hnil
    simp [canonico] at this
    omega
  have hgDne : ((canonico randv tlC tdC ts.toNat
      (nbl.toNat * (nb.toNat / nbl.toNat))).temposDict.map qOfNat) ≠ [] := by
    intro hnil
    have := congrArg List.length hnil
    simp [canonico] at this
    omega
  obtain ⟨gL, hgL⟩ : ∃ s, calcular_estatisticas_simples
      ((canonico randv tlC tdC ts.toNat
        (nbl.toNat * (nb.toNat / nbl.toNat))).temposLista.map qOfNat)
      = .ok s := ⟨_, calc_record _ hgLne⟩
  obtain ⟨gD, hgD⟩ : ∃ s, calcular_estatisticas_simples
      ((canonico randv tlC tdC ts.toNat
        (nbl.toNat * (nb.toNat / nbl.toNat))).temposDict.map qOfNat)
      = .ok s := ⟨_, calc_record _ hgDne⟩
  refine ⟨blocos, gL, gD, ?_, hlen, hprop⟩
  simp only [executar_experimento_por_blocos, if_neg (by omega : ¬ nbl ≤ 0),
    if_neg (by omega : ¬ nb ≤ 0), if_neg (by omega : ¬ ne ≤ 0),
    if_neg (by omega : ¬ ts < 0)]
  rw [hloop]
  simp only [bind_ok, hgL, hgD]
  rfl

/-! ### Claim theorems: block runner and structure factory -/

/-- Claim C5, counterexample.  The claim promises, for *every* valid
configuration (`elementCount > 0`, `totalQueries > 0`, `blockCount > 0`,
`sampleCap ≥ 0`), exactly `blockCount` block-statistics records.  At the
valid configuration `elementCount = 1`, `totalQueries = 1`, `blockCount = 2`,
`sampleCap = 0` the block size is `1 div 2 = 0`, the first block's collector
is empty, and the per-block statistics call aborts the run with `EmptyInput`
(an uncaught `ValueError` in Python): no block record is produced at all. -/
theorem claim5_counterexample :
    executar_experimento_por_blocos 1 1 2 0 (fun _ => 0) (fun _ => 0)
      (fun _ => 0) = .error .emptyInput := rfl

/-- Claim C5 (amended: additionally `blockCount ≤ totalQueries`, so each
block runs at least one query).  The block runner produces exactly
`blockCount` block-statistics records, each with sample count
`totalQueries div blockCount`; each global timing sequence has length
`blockCount × (totalQueries div blockCount)` (the division remainder is
never executed); and the representative-sample collection has length
`min(sampleCap, blockCount × (totalQueries div blockCount))`. -/
theorem claim5_block_runner_counts (ne nb nbl ts : ℤ) (randv : ℕ → ℤ)
    (tlC tdC : ℕ → ℕ) (h1 : 0 < ne) (h2 : 0 < nb) (h3 : 0 < nbl)
    (h4 : 0 ≤ ts) (h5 : nbl ≤ nb) :
    ∃ r, executar_experimento_por_blocos ne nb nbl ts randv tlC tdC = .ok r
      ∧ r.estatisticasBlocos.length = nbl.toNat
      ∧ (∀ b ∈ r.estatisticasBlocos,
          lookupD b ("n") = .rat ((nb.toNat / nbl.toNat : ℕ) : ℚ))
      ∧ r.temposLista.length = nbl.toNat * (nb.toNat / nbl.toNat)
      ∧ r.temposDict.length = nbl.toNat * (nb.toNat / nbl.toNat)
      ∧ r.amostras.length
          = min ts.toNat (nbl.toNat * (nb.toNat / nbl.toNat)) := by
  obtain ⟨blocos, gL, gD, hrun, hlen, hprop⟩ :=
    executar_canonical ne nb nbl ts randv tlC tdC h1 h2 h3 h4 h5
  exact ⟨_, hrun, hlen, hprop, by simp [canonico], by simp [canonico],
    by simp [canonico, Nat.min_comm]⟩

/-- Witness for C5 at the concrete configuration
`elementCount = 1, totalQueries = 4, blockCount = 2, sampleCap = 5`. -/
theorem claim5_witness :
    (0:ℤ) < 1 ∧ (0:ℤ) < 4 ∧ (0:ℤ) < 2 ∧ (0:ℤ) ≤ 5 ∧ (2:ℤ) ≤ 4
  ∧ (∃ r, executar_experimento_por_blocos 1 4 2 5 (fun _ => 0) (fun _ => 0)
        (fun _ => 0) = .ok r
      ∧ r.estatisticasBlocos.length = (2:ℤ).toNat
      ∧ (∀ b ∈ r.estatisticasBlocos,
          lookupD b ("n") = .rat (((4:ℤ).toNat / (2:ℤ).toNat : ℕ) : ℚ))
      ∧ r.temposLista.length = (2:ℤ).toNat * ((4:ℤ).toNat / (2:ℤ).toNat)
      ∧ r.temposDict.length = (2:ℤ).toNat * ((4:ℤ).toNat / (2:ℤ).toNat)
      ∧ r.amostras.length
          = min (5:ℤ).toNat ((2:ℤ).toNat * ((4:ℤ).toNat / (2:ℤ).toNat))) :=
  ⟨by norm_num, by norm_num, by norm_num, by norm_num, by norm_num,
   claim5_block_runner_counts 1 4 2 5 (fun _ => 0) (fun _ => 0) (fun _ => 0)
     (by norm_num) (by norm_num) (by norm_num) (by norm_num) (by norm_num)⟩

/-- Claim C6: whenever `blockCount ≤ 0`, `totalQueries ≤ 0`,
`elementCount ≤ 0` or `sampleCap < 0`, the block runner fails with
`InvalidConfiguration`.  The validation block sits at the top of the
function, before `criar_estruturas` and before any block loop, and the
error result carries no partial data. -/
theorem claim6_invalid_configuration (ne nb nbl ts : ℤ) (randv : ℕ → ℤ)
    (tlC tdC : ℕ → ℕ)
    (h : nbl ≤ 0 ∨ nb ≤ 0 ∨ ne ≤ 0 ∨ ts < 0) :
    executar_experimento_por_blocos ne nb nbl ts randv tlC tdC
      = .error .invalidConfiguration := by
  by_cases hc1 : nbl ≤ 0
  · simp only [executar_experimento_por_blocos, if_pos hc1]
  · by_cases hc2 : nb ≤ 0
    · simp only [executar_experimento_por_blocos, if_neg hc1, if_pos hc2]
    · by_cases hc3 : ne ≤ 0
      · simp only [executar_experimento_por_blocos, if_neg hc1, if_neg hc2,
          if_pos hc3]
      · have hc4 : ts < 0 := by tauto
        simp only [executar_experimento_por_blocos, if_neg hc1, if_neg hc2,
          if_neg hc3, if_pos hc4]

/-- Witness for C6 at `totalQueries = -1` (the other parameters valid). -/
theorem claim6_witness :
    ((2:ℤ) ≤ 0 ∨ (-1:ℤ) ≤ 0 ∨ (7:ℤ) ≤ 0 ∨ (3:ℤ) < 0)
  ∧ executar_experimento_por_blocos 7 (-1) 2 3 (fun _ => 0) (fun _ => 0)
      (fun _ => 0) = .error .invalidConfiguration :=
  ⟨by norm_num,
   claim6_invalid_configuration 7 (-1) 2 3 (fun _ => 0) (fun _ => 0)
     (fun _ => 0) (by norm_num)⟩

lemma mem_intRange (n : ℤ) (v : ℤ) : v ∈ intRange n ↔ 0 ≤ v ∧ v < n := by
  simp only [intRange, List.mem_map, List.mem_range, zOfNat]
  constructor
  · rintro ⟨k, hk, rfl⟩
    omega
  · rintro ⟨h0, hn⟩
    exact ⟨v.toNat, by omega, by omega⟩

/-- Claim C7, counterexample.  The claim requires the structure factory to
fail with `InvalidConfiguration` when `elementCount ≤ 0`; but
`criar_estruturas` performs no validation at all: at `elementCount = -1` it
succeeds, returning the (empty) structures `range(-1)` and `{}`. -/
theorem claim7_counterexample :
    criar_estruturas (-1) = .ok (⟨0, -1⟩, [])
  ∧ criar_estruturas (-1) ≠ .error .invalidConfiguration :=
  ⟨rfl, by simp [criar_estruturas]⟩

/-- Claim C7 (amended): the structure factory itself never fails — for every
`elementCount` it returns the range structure over `[0, elementCount)` and
the key sequence of the mapping, whose membership predicates hold for `v`
exactly when `0 ≤ v < elementCount` (both empty when `elementCount ≤ 0`);
the rejection of `elementCount ≤ 0` with `InvalidConfiguration` is performed
by the enclosing block runner before the factory is invoked, not by the
factory. -/
theorem claim7_factory_membership (n : ℤ) :
    (∃ rs ks, criar_estruturas n = .ok (rs, ks)
      ∧ (∀ v : ℤ, rangeMem rs v ↔ 0 ≤ v ∧ v < n)
      ∧ (∀ v : ℤ, v ∈ ks ↔ 0 ≤ v ∧ v < n))
  ∧ (∀ (nb nbl ts : ℤ) (randv : ℕ → ℤ) (tlC tdC : ℕ → ℕ),
      0 < nbl → 0 < nb → n ≤ 0 →
        executar_experimento_por_blocos n nb nbl ts randv tlC tdC
          = .error .invalidConfiguration) := by
  constructor
  · refine ⟨⟨0, n⟩, intRange n, rfl, ?_, ?_⟩
    · intro v
      exact Iff.rfl
    · intro v
      exact mem_intRange n v
  · intro nb nbl ts randv tlC tdC hnbl hnb hne
    simp only [executar_experimento_por_blocos,
      if_neg (by omega : ¬ nbl ≤ 0), if_neg (by omega : ¬ nb ≤ 0),
      if_pos (by omega : n ≤ 0)]

/-- Witness for C7: the factory part at `elementCount = 5` and the runner
rejection at `elementCount = -3`. -/
theorem claim7_witness :
    (∃ rs ks, criar_estruturas 5 = .ok (rs, ks)
      ∧ (∀ v : ℤ, rangeMem rs v ↔ 0 ≤ v ∧ v < 5)
      ∧ (∀ v : ℤ, v ∈ ks ↔ 0 ≤ v ∧ v < 5))
  ∧ executar_experimento_por_blocos (-3) 4 2 0 (fun _ => 0) (fun _ => 0)
      (fun _ => 0) = .error .invalidConfiguration :=
  ⟨(claim7_factory_membership 5).1,
   (claim7_factory_membership (-3)).2 4 2 0 (fun _ => 0) (fun _ => 0)
     (fun _ => 0) (by norm_num) (by norm_num) (by norm_num)⟩

/-- Claim C8: every value appended to the global and block-local timing
sequences is `min(rawElapsed, 2^32 - 1)` — so no stored timing value exceeds
`2^32 - 1` — while the representative-sample triples keep the unclamped raw
elapsed times drawn from the timing oracles. -/
theorem claim8_clamping (ne nb nbl ts : ℤ) (randv : ℕ → ℤ) (tlC tdC : ℕ → ℕ)
    (h1 : 0 < ne) (h2 : 0 < nb) (h3 : 0 < nbl) (h4 : 0 ≤ ts)
    (h5 : nbl ≤ nb) :
    (∀ (st : EstadoGlobal) (colLista colDict : List ℕ) (g k : ℕ),
        (loopBloco randv tlC tdC ts.toNat st colLista colDict g k).2.1
            = colLista
              ++ (List.range k).map (fun i => clampU32 (tlC (g + i)))
          ∧ (loopBloco randv tlC tdC ts.toNat st colLista colDict g k).2.2
            = colDict
              ++ (List.range k).map (fun i => clampU32 (tdC (g + i))))
  ∧ ∃ r, executar_experimento_por_blocos ne nb nbl ts randv tlC tdC = .ok r
      ∧ r.temposLista = (List.range (nbl.toNat * (nb.toNat / nbl.toNat))).map
          (fun j => clampU32 (tlC j))
      ∧ r.temposDict = (List.range (nbl.toNat * (nb.toNat / nbl.toNat))).map
          (fun j => clampU32 (tdC j))
      ∧ (∀ tv ∈ r.temposLista, tv ≤ 2 ^ 32 - 1)
      ∧ (∀ tv ∈ r.temposDict, tv ≤ 2 ^ 32 - 1)
      ∧ r.amostras = (List.range (min ts.toNat
            (nbl.toNat * (nb.toNat / nbl.toNat)))).map
          (fun j => (randv j, tlC j, tdC j)) := by
  constructor
  · intro st colLista colDict g k
    exact loopBloco_coletores randv tlC tdC ts.toNat k st colLista colDict g
  · obtain ⟨blocos, gL, gD, hrun, hlen, hprop⟩ :=
      executar_canonical ne nb nbl ts randv tlC tdC h1 h2 h3 h4 h5
    refine ⟨_, hrun, by simp [canonico], by simp [canonico], ?_, ?_,
      by simp [canonico, Nat.min_comm]⟩
    · intro tv htv
      simp only [canonico, List.mem_map] at htv
      obtain ⟨j, _, rfl⟩ := htv
      exact min_le_right _ _
    · intro tv htv
      simp only [canonico, List.mem_map] at htv
      obtain ⟨j, _, rfl⟩ := htv
      exact min_le_right _ _

/-- Witness for C8 at the configuration
`elementCount = 1, totalQueries = 2, blockCount = 1, sampleCap = 1`. -/
theorem claim8_witness :
    (0:ℤ) < 1 ∧ (0:ℤ) < 2 ∧ (0:ℤ) < 1 ∧ (0:ℤ) ≤ 1 ∧ (1:ℤ) ≤ 2
  ∧ ((∀ (st : EstadoGlobal) (colLista colDict : List ℕ) (g k : ℕ),
        (loopBloco (fun _ => 0) (fun _ => 9) (fun _ => 7) (1:ℤ).toNat st
            colLista colDict g k).2.1
            = colLista
              ++ (List.range k).map (fun i => clampU32 ((fun _ => 9) (g + i)))
          ∧ (loopBloco (fun _ => 0) (fun _ => 9) (fun _ => 7) (1:ℤ).toNat st
            colLista colDict g k).2.2
            = colDict
              ++ (List.range k).map (fun i => clampU32 ((fun _ => 7) (g + i))))
  ∧ ∃ r, executar_experimento_por_blocos 1 2 1 1 (fun _ => 0) (fun _ => 9)
        (fun _ => 7) = .ok r
      ∧ r.temposLista = (List.range ((1:ℤ).toNat * ((2:ℤ).toNat / (1:ℤ).toNat))).map
          (fun j => clampU32 ((fun _ => 9) j))
      ∧ r.temposDict = (List.range ((1:ℤ).toNat * ((2:ℤ).toNat / (1:ℤ).toNat))).map
          (fun j => clampU32 ((fun _ => 7) j))
      ∧ (∀ tv ∈ r.temposLista, tv ≤ 2 ^ 32 - 1)
      ∧ (∀ tv ∈ r.temposDict, tv ≤ 2 ^ 32 - 1)
      ∧ r.amostras = (List.range (min (1:ℤ).toNat
            ((1:ℤ).toNat * ((2:ℤ).toNat / (1:ℤ).toNat)))).map
          (fun j => ((fun _ => (0:ℤ)) j, (fun _ => 9) j, (fun _ => 7) j))) :=
  ⟨by norm_num, by norm_num, by norm_num, by norm_num, by norm_num,
   claim8_clamping 1 2 1 1 (fun _ => 0) (fun _ => 9) (fun _ => 7)
     (by norm_num) (by norm_num) (by norm_num) (by norm_num) (by norm_num)⟩

/-! ### Claim theorems: Welch t-test and descriptive statistics -/

/-- Claim C1, counterexample.  The claim says the Welch t-test operation uses
*sample* variances (divisor n−1).  `analise_resultados.welch_ttest` does, but
the t statistic of calcular_estatisticas.py squares `std_pop`, i.e. uses the
*population* variances (divisor n): on `x = [0,2]`, `y = [0,4]` the script
computes `t = -1 / sqrt(5/2)` while the claimed formula gives
`t = -1 / sqrt(5)`, two different real numbers. -/
theorem claim1_counterexample :
    npVarQ ([0, 2] : List ℚ) 0 = 1 ∧ specVarSample ([0, 2] : List ℚ) = 2
  ∧ t_stat_script ([0, 2] : List ℚ) ([0, 4] : List ℚ)
      = PyFloat.divSqrt (-1) (5 / 2)
  ∧ specWelchT ([0, 2] : List ℚ) ([0, 4] : List ℚ) = PyFloat.divSqrt (-1) 5
  ∧ t_stat_script ([0, 2] : List ℚ) ([0, 4] : List ℚ)
      ≠ specWelchT ([0, 2] : List ℚ) ([0, 4] : List ℚ)
  ∧ (-1 : ℝ) / Real.sqrt (5 / 2) ≠ (-1 : ℝ) / Real.sqrt 5 := by
  have e1 : npVarQ ([0, 2] : List ℚ) 0 = 1 := by
    norm_num [npVarQ, ssdQ, npMean, sumQ]
  have e2 : specVarSample ([0, 2] : List ℚ) = 2 := by
    norm_num [specVarSample, specMean]
  have e3 : t_stat_script ([0, 2] : List ℚ) ([0, 4] : List ℚ)
      = PyFloat.divSqrt (-1) (5 / 2) := by
    norm_num [t_stat_script, npVarQ, ssdQ, npMean, sumQ]
  have e4 : specWelchT ([0, 2] : List ℚ) ([0, 4] : List ℚ)
      = PyFloat.divSqrt (-1) 5 := by
    norm_num [specWelchT, specVarSample, specMean]
  refine ⟨e1, e2, e3, e4, ?_, ?_⟩
  · rw [e3, e4]
    intro h
    rw [PyFloat.divSqrt.injEq] at h
    norm_num at h
  · have hs : Real.sqrt (5 / 2) < Real.sqrt 5 :=
      Real.sqrt_lt_sqrt (by norm_num) (by norm_num)
    have hp1 : 0 < Real.sqrt (5 / 2) := Real.sqrt_pos.mpr (by norm_num)
    have hp2 : 0 < Real.sqrt 5 := Real.sqrt_pos.mpr (by norm_num)
    intro h
    rw [div_eq_div_iff (by positivity) (by positivity)] at h
    nlinarith [hs]

/-- Claim C1 (amended): `welch_ttest` computes its variances as sample
variances (divisor n−1) and returns
`t = (meanX − meanY)/sqrt(varX/nX + varY/nY)` exactly as the spec words it;
the t statistic of calcular_estatisticas.py uses the same formula but with
*population* variances (divisor n). -/
theorem claim1_welch_variances (x y : List ℚ) (_hx : 2 ≤ x.length)
    (_hy : 2 ≤ y.length) :
    (∃ r, welch_ttest x y = .ok r ∧ r.t = specWelchT x y)
  ∧ t_stat_script x y
      = .divSqrt (specMean x - specMean y)
          (specVarPop x / (x.length : ℚ) + specVarPop y / (y.length : ℚ)) := by
  constructor
  · refine ⟨_, rfl, ?_⟩
    simp [welch_ttest, specWelchT, npVarQ, ssdQ, npMean, sumQ,
      specVarSample, specMean]
  · simp [t_stat_script, npVarQ, ssdQ, npMean, sumQ, specVarPop, specMean]

/-- Witness for C1 at `x = [0,1]`, `y = [2,3]`. -/
theorem claim1_witness :
    2 ≤ ([0, 1] : List ℚ).length ∧ 2 ≤ ([2, 3] : List ℚ).length
  ∧ ((∃ r, welch_ttest ([0, 1] : List ℚ) ([2, 3] : List ℚ) = .ok r
        ∧ r.t = specWelchT ([0, 1] : List ℚ) ([2, 3] : List ℚ))
    ∧ t_stat_script ([0, 1] : List ℚ) ([2, 3] : List ℚ)
      = .divSqrt (specMean ([0, 1] : List ℚ) - specMean ([2, 3] : List ℚ))
          (specVarPop ([0, 1] : List ℚ) / (([0, 1] : List ℚ).length : ℚ)
            + specVarPop ([2, 3] : List ℚ) / (([2, 3] : List ℚ).length : ℚ))) :=
  ⟨by norm_num, by norm_num,
   claim1_welch_variances [0, 1] [2, 3] (by norm_num) (by norm_num)⟩

/-- Claim C3, counterexample.  The claim requires the Welch operation to fail
with `InsufficientSamples` when an input has fewer than 2 elements
(`x = [1]`) or when `varX/nX + varY/nY = 0` (`x = y = [5,5]`); in both cases
`welch_ttest` performs no check and returns a result dict (in Python the
degenerate arithmetic only emits NaN/Inf warnings, never an exception). -/
theorem claim3_counterexample :
    exceptOk (welch_ttest ([1] : List ℚ) ([2, 4] : List ℚ)) = true
  ∧ exceptOk (welch_ttest ([5, 5] : List ℚ) ([5, 5] : List ℚ)) = true :=
  ⟨rfl, rfl⟩

/-- Claim C3 (amended): `welch_ttest` performs no input validation at all —
for every pair of input sequences it succeeds, returning the t statistic and
Welch–Satterthwaite degrees of freedom computed blindly from the sample
variances; sequences with fewer than 2 elements or a zero squared standard
error produce degenerate (NaN in Python) values rather than an
`InsufficientSamples` failure. -/
theorem claim3_welch_no_validation (x y : List ℚ) :
    welch_ttest x y = .ok
      ⟨.divSqrt (npMean x - npMean y)
          (npVarQ x 1 / (x.length : ℚ) + npVarQ y 1 / (y.length : ℚ)),
        (npVarQ x 1 / (x.length : ℚ) + npVarQ y 1 / (y.length : ℚ)) ^ 2 /
          ((npVarQ x 1 ^ 2) / (((x.length : ℚ) ^ 2) * ((x.length : ℚ) - 1))
            + (npVarQ y 1 ^ 2)
              / (((y.length : ℚ) ^ 2) * ((y.length : ℚ) - 1)))⟩ := rfl

/-- Claim C2, counterexample.  The claim says summarize returns a nine-field
record including a sample standard deviation.  The summarize of
experimento_busca.py (`calcular_estatisticas_simples`) returns an
*eight*-field record — `n, media, mediana, pstdev, q1, q3, min, max` — with
only the population deviation; it has no `std_sample`-like field. -/
theorem claim2_counterexample :
    (calcular_estatisticas_simples ([1, 2] : List ℚ)).map
        (fun st => st.map Prod.fst)
      = .ok [("n"), ("media"), ("mediana"), ("pstdev"), ("q1"), ("q3"),
             ("min"), ("max")]
  ∧ (calcular_estatisticas_simples ([1, 2] : List ℚ)).map
        (fun st => (st.map Prod.fst).length) = .ok 8
  ∧ (calcular_estatisticas_simples ([1, 2] : List ℚ)).map
        (fun st => (st.map Prod.fst).contains ("std_sample")) = .ok false := by
  rw [calc_record ([1, 2] : List ℚ) (by simp)]
  refine ⟨rfl, rfl, rfl⟩

/-- Claim C2 (amended): on every non-empty sequence,
`calcular_estatisticas_simples` fails with `EmptyInput` on the empty
sequence and otherwise returns the eight-field record
`{n, media, mediana, pstdev, q1, q3, min, max}` whose `pstdev` is the
square root of the divisor-`n` variance, with no sample deviation field;
`descriptive_stats` returns the nine-field record
`{n, mean, median, std_pop, std_sample, q1, q3, min, max}` where `std_pop`
uses divisor n and `std_sample` uses divisor n−1 (it performs no
empty-input check of its own). -/
theorem claim2_summarize_fields (v : List ℚ) (hv : v ≠ []) :
    calcular_estatisticas_simples ([] : List ℚ) = .error .emptyInput
  ∧ calcular_estatisticas_simples v = .ok
      [(("n"), .rat (v.length : ℚ)), (("media"), .rat (specMean v)),
       (("mediana"), .rat (quantil (sortQ v) v.length (1/2))),
       (("pstdev"), .sqrtOf ((v.map (fun x => (x - specMean v) ^ 2)).sum
          / (v.length : ℚ))),
       (("q1"), .rat (quantil (sortQ v) v.length (1/4))),
       (("q3"), .rat (quantil (sortQ v) v.length (3/4))),
       (("min"), .rat (pyMin v)), (("max"), .rat (pyMax v))]
  ∧ descriptive_stats v
      = [(("n"), .rat (v.length : ℚ)), (("mean"), .rat (specMean v)),
         (("median"), .rat (npPercentile v 50)),
         (("std_pop"), .sqrtOf ((v.map (fun x => (x - specMean v) ^ 2)).sum
            / (v.length : ℚ))),
         (("std_sample"),
           .sqrtOf ((v.map (fun x => (x - specMean v) ^ 2)).sum
            / ((v.length : ℚ) - 1))),
         (("q1"), .rat (npPercentile v 25)),
         (("q3"), .rat (npPercentile v 75)),
         (("min"), .rat (pyMin v)), (("max"), .rat (pyMax v))] := by
  refine ⟨rfl, ?_, ?_⟩
  · rw [calc_record v hv]
    simp [ssdQ, npMean, sumQ, specMean]
  · simp [descriptive_stats, npVarQ, npMedian, ssdQ, npMean, sumQ, specMean]

/-- Witness for C2 at `v = [1, 2]`. -/
theorem claim2_witness :
    ([1, 2] : List ℚ) ≠ []
  ∧ (calcular_estatisticas_simples ([] : List ℚ) = .error .emptyInput
  ∧ calcular_estatisticas_simples ([1, 2] : List ℚ) = .ok
      [(("n"), .rat (([1, 2] : List ℚ).length : ℚ)),
       (("media"), .rat (specMean ([1, 2] : List ℚ))),
       (("mediana"), .rat (quantil (sortQ ([1, 2] : List ℚ))
          ([1, 2] : List ℚ).length (1/2))),
       (("pstdev"), .sqrtOf ((([1, 2] : List ℚ).map
          (fun x => (x - specMean ([1, 2] : List ℚ)) ^ 2)).sum
          / (([1, 2] : List ℚ).length : ℚ))),
       (("q1"), .rat (quantil (sortQ ([1, 2] : List ℚ))
          ([1, 2] : List ℚ).length (1/4))),
       (("q3"), .rat (quantil (sortQ ([1, 2] : List ℚ))
          ([1, 2] : List ℚ).length (3/4))),
       (("min"), .rat (pyMin ([1, 2] : List ℚ))),
       (("max"), .rat (pyMax ([1, 2] : List ℚ)))]
  ∧ descriptive_stats ([1, 2] : List ℚ)
      = [(("n"), .rat (([1, 2] : List ℚ).length : ℚ)),
         (("mean"), .rat (specMean ([1, 2] : List ℚ))),
         (("median"), .rat (npPercentile ([1, 2] : List ℚ) 50)),
         (("std_pop"), .sqrtOf ((([1, 2] : List ℚ).map
            (fun x => (x - specMean ([1, 2] : List ℚ)) ^ 2)).sum
            / (([1, 2] : List ℚ).length : ℚ))),
         (("std_sample"), .sqrtOf ((([1, 2] : List ℚ).map
            (fun x => (x - specMean ([1, 2] : List ℚ)) ^ 2)).sum
            / ((([1, 2] : List ℚ).length : ℚ) - 1))),
         (("q1"), .rat (npPercentile ([1, 2] : List ℚ) 25)),
         (("q3"), .rat (npPercentile ([1, 2] : List ℚ) 75)),
         (("min"), .rat (pyMin ([1, 2] : List ℚ))),
         (("max"), .rat (pyMax ([1, 2] : List ℚ)))]) :=
  ⟨by simp, claim2_summarize_fields ([1, 2] : List ℚ) (by simp)⟩

/-- Claim C4: median, q1 and q3 are computed by the exact linear-interpolation
formula of the spec (`position = q·(n−1)`, `lo = floor(position)`,
`hi = min(lo+1, n−1)`, `frac = position − lo`,
`sorted[lo]·(1−frac) + sorted[hi]·frac`), and on `[1,2,3,4]` summarize yields
mean 2.5, median 2.5, q1 1.75, q3 3.25, min 1, max 4 (with population
deviation `sqrt(5/4)`). -/
theorem claim4_quantile_interpolation (v : List ℚ) (hv : v ≠ []) :
    (∀ q : ℚ, quantil (sortQ v) v.length q
        = specQuantile (sortQ v) v.length q)
  ∧ calcular_estatisticas_simples v = .ok
      [(("n"), .rat (v.length : ℚ)), (("media"), .rat (specMean v)),
       (("mediana"), .rat (specQuantile (sortQ v) v.length (1/2))),
       (("pstdev"), .sqrtOf ((v.map (fun x => (x - specMean v) ^ 2)).sum
          / (v.length : ℚ))),
       (("q1"), .rat (specQuantile (sortQ v) v.length (1/4))),
       (("q3"), .rat (specQuantile (sortQ v) v.length (3/4))),
       (("min"), .rat (pyMin v)), (("max"), .rat (pyMax v))]
  ∧ calcular_estatisticas_simples ([1, 2, 3, 4] : List ℚ) = .ok
      [(("n"), .rat 4), (("media"), .rat (5/2)), (("mediana"), .rat (5/2)),
       (("pstdev"), .sqrtOf (5/4)), (("q1"), .rat (7/4)),
       (("q3"), .rat (13/4)), (("min"), .rat 1), (("max"), .rat 4)] := by
  refine ⟨fun q => rfl, ?_, ?_⟩
  · rw [calc_record v hv]
    simp [ssdQ, npMean, sumQ, specMean, quantil, specQuantile]
  · rw [calc_record ([1, 2, 3, 4] : List ℚ) (by simp)]
    norm_num [quantil, sortQ, List.insertionSort, List.orderedInsert,
      specMean, npMean, sumQ, ssdQ, pyMin, pyMax, List.foldl, Int.toNat]

/-- Witness for C4 at `v = [1, 2, 3, 4]` (the claim's own example input). -/
theorem claim4_witness :
    ([1, 2, 3, 4] : List ℚ) ≠ []
  ∧ ((∀ q : ℚ, quantil (sortQ ([1, 2, 3, 4] : List ℚ))
        ([1, 2, 3, 4] : List ℚ).length q
        = specQuantile (sortQ ([1, 2, 3, 4] : List ℚ))
            ([1, 2, 3, 4] : List ℚ).length q)
  ∧ calcular_estatisticas_simples ([1, 2, 3, 4] : List ℚ) = .ok
      [(("n"), .rat (([1, 2, 3, 4] : List ℚ).length : ℚ)),
       (("media"), .rat (specMean ([1, 2, 3, 4] : List ℚ))),
       (("mediana"), .rat (specQuantile (sortQ ([1, 2, 3, 4] : List ℚ))
          ([1, 2, 3, 4] : List ℚ).length (1/2))),
       (("pstdev"), .sqrtOf ((([1, 2, 3, 4] : List ℚ).map
          (fun x => (x - specMean ([1, 2, 3, 4] : List ℚ)) ^ 2)).sum
          / (([1, 2, 3, 4] : List ℚ).length : ℚ))),
       (("q1"), .rat (specQuantile (sortQ ([1, 2, 3, 4] : List ℚ))
          ([1, 2, 3, 4] : List ℚ).length (1/4))),
       (("q3"), .rat (specQuantile (sortQ ([1, 2, 3, 4] : List ℚ))
          ([1, 2, 3, 4] : List ℚ).length (3/4))),
       (("min"), .rat (pyMin ([1, 2, 3, 4] : List ℚ))),
       (("max"), .rat (pyMax ([1, 2, 3, 4] : List ℚ)))]
  ∧ calcular_estatisticas_simples ([1, 2, 3, 4] : List ℚ) = .ok
      [(("n"), .rat 4), (("media"), .rat (5/2)), (("mediana"), .rat (5/2)),
       (("pstdev"), .sqrtOf (5/4)), (("q1"), .rat (7/4)),
       (("q3"), .rat (13/4)), (("min"), .rat 1), (("max"), .rat 4)]) :=
  ⟨by simp, claim4_quantile_interpolation ([1, 2, 3, 4] : List ℚ) (by simp)⟩

/-! ### Helper lemmas for the ordering claim -/

lemma getD_eq_getElem (s : List ℚ) (i : ℕ) (h : i < s.length) :
    s.getD i 0 = s[i] := by
  rw [List.getD_eq_getElem?_getD, List.getElem?_eq_getElem h, Option.getD_some]

lemma getD_sorted_le {s : List ℚ} (hs : s.Sorted (· ≤ ·)) {i j : ℕ}
    (hij : i ≤ j) (hj : j < s.length) : s.getD i 0 ≤ s.getD j 0 := by
  have hi : i < s.length := lt_of_le_of_lt hij hj
  rw [getD_eq_getElem s i hi, getD_eq_getElem s j hj]
  rcases eq_or_lt_of_le hij with rfl | h
  · exact le_refl _
  · exact List.pairwise_iff_getElem.mp hs i j hi hj h

/-- Monotonicity of the linear-interpolation kernel in the position, on a
sorted sequence. -/
lemma interp_mono (s : List ℚ) (hs : s.Sorted (· ≤ ·)) (n : ℕ)
    (hn : s.length = n) (h1 : 1 ≤ n) (p p' : ℚ)
    (hp0 : 0 ≤ p) (hpp : p ≤ p') (hp1 : p' ≤ (n : ℚ) - 1) :
    s.getD (⌊p⌋.toNat) 0 * (1 - (p - ((⌊p⌋.toNat : ℕ) : ℚ)))
      + s.getD (min (⌊p⌋.toNat + 1) (n - 1)) 0 * (p - ((⌊p⌋.toNat : ℕ) : ℚ))
    ≤ s.getD (⌊p'⌋.toNat) 0 * (1 - (p' - ((⌊p'⌋.toNat : ℕ) : ℚ)))
      + s.getD (min (⌊p'⌋.toNat + 1) (n - 1)) 0
          * (p' - ((⌊p'⌋.toNat : ℕ) : ℚ)) := by
  have hfl0 : 0 ≤ ⌊p⌋ := Int.floor_nonneg.mpr hp0
  have hfl0' : 0 ≤ ⌊p'⌋ := Int.floor_nonneg.mpr (hp0.trans hpp)
  have hcast : ((⌊p⌋.toNat : ℕ) : ℚ) = ((⌊p⌋ : ℤ) : ℚ) := by
    exact_mod_cast congrArg (fun z : ℤ => (z : ℚ))
      (Int.toNat_of_nonneg hfl0)
  have hcast' : ((⌊p'⌋.toNat : ℕ) : ℚ) = ((⌊p'⌋ : ℤ) : ℚ) := by
    exact_mod_cast congrArg (fun z : ℤ => (z : ℚ))
      (Int.toNat_of_nonneg hfl0')
  have hloq : ((⌊p⌋.toNat : ℕ) : ℚ) ≤ p := by
    rw [hcast]; exact Int.floor_le p
  have hloq1 : p < ((⌊p⌋.toNat : ℕ) : ℚ) + 1 := by
    rw [hcast]; exact Int.lt_floor_add_one p
  have hloq' : ((⌊p'⌋.toNat : ℕ) : ℚ) ≤ p' := by
    rw [hcast']; exact Int.floor_le p'
  have hlon : ⌊p⌋.toNat ≤ n - 1 := by
    have hq : ((⌊p⌋.toNat : ℕ) : ℚ) ≤ ((n - 1 : ℕ) : ℚ) := by
      rw [Nat.cast_sub h1, Nat.cast_one]
      exact hloq.trans (hpp.trans hp1)
    exact_mod_cast hq
  have hlon' : ⌊p'⌋.toNat ≤ n - 1 := by
    have hq : ((⌊p'⌋.toNat : ℕ) : ℚ) ≤ ((n - 1 : ℕ) : ℚ) := by
      rw [Nat.cast_sub h1, Nat.cast_one]
      exact hloq'.trans hp1
    exact_mod_cast hq
  have hhi_lt : min (⌊p⌋.toNat + 1) (n - 1) < s.length := by rw [hn]; omega
  have hhi_lt' : min (⌊p'⌋.toNat + 1) (n - 1) < s.length := by rw [hn]; omega
  have hlo_lt' : ⌊p'⌋.toNat < s.length := by rw [hn]; omega
  have hab : s.getD (⌊p⌋.toNat) 0
      ≤ s.getD (min (⌊p⌋.toNat + 1) (n - 1)) 0 :=
    getD_sorted_le hs (by omega) hhi_lt
  have hab' : s.getD (⌊p'⌋.toNat) 0
      ≤ s.getD (min (⌊p'⌋.toNat + 1) (n - 1)) 0 :=
    getD_sorted_le hs (by omega) hhi_lt'
  by_cases hll : ⌊p⌋.toNat = ⌊p'⌋.toNat
  · rw [hll]
    nlinarith [mul_nonneg (sub_nonneg.mpr hab')
      (by linarith : (0:ℚ) ≤ p' - p)]
  · have hfloor : ⌊p⌋ ≤ ⌊p'⌋ := Int.floor_le_floor hpp
    have hlolt : ⌊p⌋.toNat < ⌊p'⌋.toNat := by omega
    have step1 : s.getD (⌊p⌋.toNat) 0 * (1 - (p - ((⌊p⌋.toNat : ℕ) : ℚ)))
        + s.getD (min (⌊p⌋.toNat + 1) (n - 1)) 0
            * (p - ((⌊p⌋.toNat : ℕ) : ℚ))
        ≤ s.getD (min (⌊p⌋.toNat + 1) (n - 1)) 0 := by
      nlinarith [mul_nonneg (sub_nonneg.mpr hab)
        (by linarith : (0:ℚ) ≤ 1 - (p - ((⌊p⌋.toNat : ℕ) : ℚ)))]
    have step2 : s.getD (min (⌊p⌋.toNat + 1) (n - 1)) 0
        ≤ s.getD (⌊p'⌋.toNat) 0 :=
      getD_sorted_le hs (by omega) hlo_lt'
    have step3 : s.getD (⌊p'⌋.toNat) 0
        ≤ s.getD (⌊p'⌋.toNat) 0 * (1 - (p' - ((⌊p'⌋.toNat : ℕ) : ℚ)))
          + s.getD (min (⌊p'⌋.toNat + 1) (n - 1)) 0
              * (p' - ((⌊p'⌋.toNat : ℕ) : ℚ)) := by
      nlinarith [mul_nonneg (sub_nonneg.mpr hab')
        (by linarith : (0:ℚ) ≤ p' - ((⌊p'⌋.toNat : ℕ) : ℚ))]
    linarith

/-- The interpolated quantile is monotone in `q` on a sorted sequence. -/
lemma quantil_mono (s : List ℚ) (hs : s.Sorted (· ≤ ·)) (n : ℕ)
    (hn : s.length = n) (h1 : 1 ≤ n) (q q' : ℚ) (hq0 : 0 ≤ q) (hqq : q ≤ q')
    (hq1 : q' ≤ 1) : quantil s n q ≤ quantil s n q' := by
  have hn1 : (0:ℚ) ≤ (n:ℚ) - 1 := by
    have h1' : (1:ℚ) ≤ (n:ℚ) := by exact_mod_cast h1
    linarith
  have key := interp_mono s hs n hn h1 (q * ((n:ℚ) - 1)) (q' * ((n:ℚ) - 1))
    (mul_nonneg hq0 hn1) (mul_le_mul_of_nonneg_right hqq hn1) (by nlinarith)
  simpa only [quantil] using key

lemma quantil_zero (s : List ℚ) (n : ℕ) :
    quantil s n 0 = s.getD 0 0 := by
  simp [quantil]

lemma quantil_one (s : List ℚ) (n : ℕ) (h1 : 1 ≤ n) :
    quantil s n 1 = s.getD (n - 1) 0 := by
  have hc : ((n:ℚ) - 1) = ((n - 1 : ℕ) : ℚ) := by
    rw [Nat.cast_sub h1, Nat.cast_one]
  simp only [quantil, one_mul, hc, Int.floor_natCast, Int.toNat_natCast]
  rw [min_eq_right (by omega : n - 1 ≤ n - 1 + 1)]
  ring_nf

lemma foldl_min_le (xs : List ℚ) : ∀ a : ℚ, xs.foldl min a ≤ a := by
  induction xs with
  | nil => intro a; simp
  | cons x xs ih =>
    intro a
    simp only [List.foldl_cons]
    exact (ih (min a x)).trans (min_le_left a x)

lemma foldl_min_le_mem (xs : List ℚ) :
    ∀ (a b : ℚ), b ∈ xs → xs.foldl min a ≤ b := by
  induction xs with
  | nil => intro a b hb; cases hb
  | cons x xs ih =>
    intro a b hb
    rcases List.mem_cons.mp hb with rfl | hb
    · simp only [List.foldl_cons]
      exact (foldl_min_le xs (min a b)).trans (min_le_right a b)
    · simp only [List.foldl_cons]
      exact ih (min a x) b hb

lemma foldl_min_mem (xs : List ℚ) :
    ∀ a : ℚ, xs.foldl min a = a ∨ xs.foldl min a ∈ xs := by
  induction xs with
  | nil => intro a; left; rfl
  | cons x xs ih =>
    intro a
    simp only [List.foldl_cons]
    rcases ih (min a x) with h | h
    · rcases min_choice a x with hm | hm
      · left; rw [h, hm]
      · right; rw [h, hm]; exact List.mem_cons_self x xs
    · right; exact List.mem_cons_of_mem x h

lemma foldl_max_ge (xs : List ℚ) : ∀ a : ℚ, a ≤ xs.foldl max a := by
  induction xs with
  | nil => intro a; simp
  | cons x xs ih =>
    intro a
    simp only [List.foldl_cons]
    exact (le_max_left a x).trans (ih (max a x))

lemma foldl_max_ge_mem (xs : List ℚ) :
    ∀ (a b : ℚ), b ∈ xs → b ≤ xs.foldl max a := by
  induction xs with
  | nil => intro a b hb; cases hb
  | cons x xs ih =>
    intro a b hb
    rcases List.mem_cons.mp hb with rfl | hb
    · simp only [List.foldl_cons]
      exact (le_max_right a b).trans (foldl_max_ge xs (max a b))
    · simp only [List.foldl_cons]
      exact ih (max a x) b hb

lemma foldl_max_mem (xs : List ℚ) :
    ∀ a : ℚ, xs.foldl max a = a ∨ xs.foldl max a ∈ xs := by
  induction xs with
  | nil => intro a; left; rfl
  | cons x xs ih =>
    intro a
    simp only [List.foldl_cons]
    rcases ih (max a x) with h | h
    · rcases max_choice a x with hm | hm
      · left; rw [h, hm]
      · right; rw [h, hm]; exact List.mem_cons_self x xs
    · right; exact List.mem_cons_of_mem x h

lemma pyMin_le (v : List ℚ) (hv : v ≠ []) : ∀ b ∈ v, pyMin v ≤ b := by
  match v with
  | x :: xs =>
    intro b hb
    rcases List.mem_cons.mp hb with rfl | hb
    · exact foldl_min_le xs b
    · exact foldl_min_le_mem xs x b hb

lemma pyMin_mem (v : List ℚ) (hv : v ≠ []) : pyMin v ∈ v := by
  match v with
  | x :: xs =>
    rcases foldl_min_mem xs x with h | h
    · simp only [pyMin, h]
      exact List.mem_cons_self x xs
    · simp only [pyMin]
      exact List.mem_cons_of_mem x h

lemma pyMax_ge (v : List ℚ) (hv : v ≠ []) : ∀ b ∈ v, b ≤ pyMax v := by
  match v with
  | x :: xs =>
    intro b hb
    rcases List.mem_cons.mp hb with rfl | hb
    · exact foldl_max_ge xs b
    · exact foldl_max_ge_mem xs x b hb

lemma pyMax_mem (v : List ℚ) (hv : v ≠ []) : pyMax v ∈ v := by
  match v with
  | x :: xs =>
    rcases foldl_max_mem xs x with h | h
    · simp only [pyMax, h]
      exact List.mem_cons_self x xs
    · simp only [pyMax]
      exact List.mem_cons_of_mem x h

lemma sortQ_sorted (v : List ℚ) : (sortQ v).Sorted (· ≤ ·) :=
  List.sorted_insertionSort (· ≤ ·) v

lemma sortQ_perm (v : List ℚ) : List.Perm (sortQ v) v :=
  List.perm_insertionSort (· ≤ ·) v

lemma sortQ_length (v : List ℚ) : (sortQ v).length = v.length :=
  (sortQ_perm v).length_eq

/-- `min(valores)` is the head of the sorted copy. -/
lemma pyMin_sorted (v : List ℚ) (hv : v ≠ []) :
    pyMin v = (sortQ v).getD 0 0 := by
  have hlen : 0 < (sortQ v).length := by
    rw [sortQ_length]
    exact List.length_pos.mpr hv
  rw [getD_eq_getElem (sortQ v) 0 hlen]
  have hmem : (sortQ v)[0] ∈ v :=
    (sortQ_perm v).mem_iff.mp (List.getElem_mem hlen)
  refine le_antisymm (pyMin_le v hv _ hmem) ?_
  obtain ⟨k, hk, hkeq⟩ :=
    List.mem_iff_getElem.mp ((sortQ_perm v).mem_iff.mpr (pyMin_mem v hv))
  rw [← hkeq]
  have h := getD_sorted_le (sortQ_sorted v) (Nat.zero_le k) hk
  rwa [getD_eq_getElem _ _ hlen, getD_eq_getElem _ _ hk] at h

/-- `max(valores)` is the last element of the sorted copy. -/
lemma pyMax_sorted (v : List ℚ) (hv : v ≠ []) :
    pyMax v = (sortQ v).getD (v.length - 1) 0 := by
  have hpos : 0 < v.length := List.length_pos.mpr hv
  have hlen : v.length - 1 < (sortQ v).length := by
    rw [sortQ_length]
    omega
  rw [getD_eq_getElem (sortQ v) (v.length - 1) hlen]
  have hmem : (sortQ v)[v.length - 1] ∈ v :=
    (sortQ_perm v).mem_iff.mp (List.getElem_mem hlen)
  refine le_antisymm ?_ (pyMax_ge v hv _ hmem)
  obtain ⟨k, hk, hkeq⟩ :=
    List.mem_iff_getElem.mp ((sortQ_perm v).mem_iff.mpr (pyMax_mem v hv))
  rw [← hkeq]
  have hkle : k ≤ v.length - 1 := by
    rw [sortQ_length] at hk
    omega
  have h := getD_sorted_le (sortQ_sorted v) hkle hlen
  rwa [getD_eq_getElem _ _ hk, getD_eq_getElem _ _ hlen] at h

/-! ### Claim theorems: ordering and frame -/

/-- Claim C9: the summarize result satisfies
`min ≤ q1 ≤ median ≤ q3 ≤ max` (the quantile fields `q1`, `mediana`, `q3`
of a non-empty sequence, with `min`/`max` as computed by the source), and
the population standard deviation `sqrt(ssd/n)` never exceeds the sample
standard deviation `sqrt(ssd/(n−1))` when `n ≥ 2` (the divisor-`n` and
divisor-`(n−1)` radicands of `descriptive_stats`'s `std_pop`/`std_sample`
fields). -/
theorem claim9_ordering (v : List ℚ) (hv : v ≠ []) :
    pyMin v ≤ quantil (sortQ v) v.length (1/4)
  ∧ quantil (sortQ v) v.length (1/4) ≤ quantil (sortQ v) v.length (1/2)
  ∧ quantil (sortQ v) v.length (1/2) ≤ quantil (sortQ v) v.length (3/4)
  ∧ quantil (sortQ v) v.length (3/4) ≤ pyMax v
  ∧ (2 ≤ v.length →
      Real.sqrt ((npVarQ v 0 : ℚ) : ℝ) ≤ Real.sqrt ((npVarQ v 1 : ℚ) : ℝ)) := by
  have h1 : 1 ≤ v.length := List.length_pos.mpr hv
  have hs := sortQ_sorted v
  have hn := sortQ_length v
  refine ⟨?_, ?_, ?_, ?_, ?_⟩
  · rw [pyMin_sorted v hv, ← quantil_zero (sortQ v) v.length]
    exact quantil_mono (sortQ v) hs v.length hn h1 0 (1/4) le_rfl
      (by norm_num) (by norm_num)
  · exact quantil_mono (sortQ v) hs v.length hn h1 (1/4) (1/2)
      (by norm_num) (by norm_num) (by norm_num)
  · exact quantil_mono (sortQ v) hs v.length hn h1 (1/2) (3/4)
      (by norm_num) (by norm_num) (by norm_num)
  · rw [pyMax_sorted v hv, ← quantil_one (sortQ v) v.length h1]
    exact quantil_mono (sortQ v) hs v.length hn h1 (3/4) 1
      (by norm_num) (by norm_num) (by norm_num)
  · intro h2n
    apply Real.sqrt_le_sqrt
    have hssd : 0 ≤ ssdQ v (npMean v) := by
      apply List.sum_nonneg
      intro x hx
      simp only [ssdQ, List.mem_map] at hx ⊢
      obtain ⟨y, _, rfl⟩ := hx
      positivity
    have hl0 : (0:ℚ) < (v.length : ℚ) := by
      exact_mod_cast h1
    have hl1 : (0:ℚ) < (v.length : ℚ) - 1 := by
      have : (2:ℚ) ≤ (v.length : ℚ) := by exact_mod_cast h2n
      linarith
    have hvar : npVarQ v 0 ≤ npVarQ v 1 := by
      simp only [npVarQ, sub_zero]
      rw [div_le_div_iff₀ hl0 hl1]
      nlinarith [hssd]
    exact_mod_cast hvar

/-- Witness for C9 at `v = [1, 2, 3]`. -/
theorem claim9_witness :
    ([1, 2, 3] : List ℚ) ≠ []
  ∧ (pyMin ([1, 2, 3] : List ℚ)
      ≤ quantil (sortQ ([1, 2, 3] : List ℚ)) ([1, 2, 3] : List ℚ).length (1/4)
  ∧ quantil (sortQ ([1, 2, 3] : List ℚ)) ([1, 2, 3] : List ℚ).length (1/4)
      ≤ quantil (sortQ ([1, 2, 3] : List ℚ)) ([1, 2, 3] : List ℚ).length (1/2)
  ∧ quantil (sortQ ([1, 2, 3] : List ℚ)) ([1, 2, 3] : List ℚ).length (1/2)
      ≤ quantil (sortQ ([1, 2, 3] : List ℚ)) ([1, 2, 3] : List ℚ).length (3/4)
  ∧ quantil (sortQ ([1, 2, 3] : List ℚ)) ([1, 2, 3] : List ℚ).length (3/4)
      ≤ pyMax ([1, 2, 3] : List ℚ)
  ∧ (2 ≤ ([1, 2, 3] : List ℚ).length →
      Real.sqrt ((npVarQ ([1, 2, 3] : List ℚ) 0 : ℚ) : ℝ)
        ≤ Real.sqrt ((npVarQ ([1, 2, 3] : List ℚ) 1 : ℚ) : ℝ))) :=
  ⟨by simp, claim9_ordering ([1, 2, 3] : List ℚ) (by simp)⟩

/-- Claim C10: `calcular_estatisticas_simples` leaves its argument list
unchanged — threading the argument as an explicit store through every
primitive the source applies to it (`len`, `sum`, the squared-deviation
generator, `min`, `max`, and `sorted`, which works on a fresh copy), the
final store is the original list, and the computed result is exactly that
of the plain embedding. -/
theorem claim10_input_unchanged (v : List ℚ) :
    (calcularEstatisticasEfeito v).2 = v
  ∧ (calcularEstatisticasEfeito v).1 = calcular_estatisticas_simples v := by
  constructor <;>
  · simp only [calcularEstatisticasEfeito, calcular_estatisticas_simples,
      pyLenOp, pySumOp, pySsdOp, pyMinOp, pyMaxOp, pySortedOp]
    split <;> rfl
